import Mathlib

/-!
# Verification of the video-stream pipeline core

Shallow embedding of the pipeline core of the face-mask detection
repository (`src/camera/stream_manager.py`, `src/workers/tasks.py`,
`src/config.py`) and proofs about it.

The queue shared between the capture threads and the single consumer is a
Python `queue.Queue` in FIFO order; we model its contents as a `List` whose
head is the oldest element.  The capture loop, the batching consumer loop
and the helper functions of the worker module are translated function by
function; each definition's doc comment names the source lines it embeds.
-/

namespace StreamPipeline

/-! ## FrameBus: the shared bounded queue

`stream_manager.py` builds `queue.Queue(maxsize=config.QUEUE_SIZE)`
(line 152) and the capture loop enqueues with the drop-oldest policy of
lines 129-138.  The capacity `cap` models a positive `QUEUE_SIZE`. -/

/-- Drop-oldest enqueue of `VideoStream._stream_loop`
(`stream_manager.py` lines 129-138): `put_nowait` succeeds when the queue
holds fewer than `cap` items; on `queue.Full` the loop removes the oldest
item with `get_nowait` and inserts the new one.  The head of the list is
the oldest element; the operation is a total function (it never blocks). -/
def tryEnqueue {α : Type} (cap : Nat) (q : List α) (e : α) : List α :=
  if q.length < cap then q ++ [e] else q.tail ++ [e]

/-- One enqueue keeps the queue within capacity. -/
lemma tryEnqueue_length_le {α : Type} (cap : Nat) (q : List α) (e : α)
    (hcap : 0 < cap) (hq : q.length ≤ cap) : (tryEnqueue cap q e).length ≤ cap := by
  unfold tryEnqueue
  split
  · simpa using by omega
  · rcases q with _ | ⟨x, xs⟩
    · simp at *; omega
    · simp at *; omega

/-- Capacity bound for a whole sequence of enqueues, from any in-capacity
start state. -/
lemma foldl_tryEnqueue_length_le {α : Type} (cap : Nat) (hcap : 0 < cap) :
    ∀ (es : List α) (q : List α), q.length ≤ cap →
      (es.foldl (tryEnqueue cap) q).length ≤ cap := by
  intro es
  induction es with
  | nil => intro q hq; simpa using hq
  | cons e es ih =>
    intro q hq
    simpa using ih (tryEnqueue cap q e) (tryEnqueue_length_le cap q e hcap hq)

/-- **C2.** Enqueueing into a full bus of capacity `cap` holding
`s1 :: rest` (oldest first) evicts exactly the oldest envelope and appends
the new one: the result is `rest ++ [e]`.  `tryEnqueue` is a total
function, so the operation never blocks. -/
theorem full_tryEnqueue_drops_oldest {α : Type} (cap : Nat) (s1 : α)
    (rest : List α) (e : α) (hfull : (s1 :: rest).length = cap) :
    tryEnqueue cap (s1 :: rest) e = rest ++ [e] := by
  unfold tryEnqueue
  rw [hfull]
  simp

/-- Concrete run of C2: capacity 3, full bus `[10, 20, 30]`, enqueueing `40`
yields `[20, 30, 40]`. -/
theorem full_tryEnqueue_drops_oldest_witness :
    ((10 : Nat) :: [20, 30]).length = 3 ∧
      tryEnqueue 3 ((10 : Nat) :: [20, 30]) 40 = [20, 30] ++ [40] :=
  ⟨by decide, full_tryEnqueue_drops_oldest 3 10 [20, 30] 40 (by decide)⟩

/-- **C3.** Bounded memory: for every sequence of enqueue operations
(evictions included, they are part of `tryEnqueue`) starting from the empty
queue, the number of envelopes held never exceeds the positive capacity. -/
theorem frame_queue_bounded {α : Type} (cap : Nat) (es : List α)
    (hcap : 0 < cap) : (es.foldl (tryEnqueue cap) []).length ≤ cap :=
  foldl_tryEnqueue_length_le cap hcap es [] (by simp)

/-- Concrete run of C3: capacity 2, four enqueues, final size ≤ 2. -/
theorem frame_queue_bounded_witness :
    0 < 2 ∧ (([1, 2, 3, 4] : List Nat).foldl (tryEnqueue 2) []).length ≤ 2 :=
  ⟨by decide, frame_queue_bounded 2 [1, 2, 3, 4] (by decide)⟩

/-! ## Enqueue and the stats counters

`StreamManager.__init__` (lines 157-163) creates the stats dictionary with
a `dropped_frames` counter.  The capture loop's enqueue path (lines
129-140) operates only on `self.frame_queue`; it never references the
manager's stats, so the counter is unchanged by an enqueue, evicting or
not.  (`dropped_frames` is written only at line 262, inside
`_process_batch`'s exception handler.) -/

/-- The enqueue step of `_stream_loop` acting on the pair (queue contents,
`dropped_frames` counter): lines 129-140 touch only the queue. -/
def streamEnqueue {α : Type} (cap : Nat) (st : List α × Nat) (e : α) :
    List α × Nat :=
  (tryEnqueue cap st.1 e, st.2)

/-- **C4 counterexample.** Capacity 1, full queue `[5]`, counter at 0:
enqueueing `6` evicts the oldest envelope, yet the `dropped_frames`
counter is still 0, not 0 + 1 as the claim states. -/
theorem evict_does_not_increment_dropped_cex :
    streamEnqueue 1 (([5] : List Nat), 0) 6 = ([6], 0) ∧
      ¬((streamEnqueue 1 (([5] : List Nat), 0) 6).2 = 0 + 1) := by
  constructor
  · rfl
  · decide

/-- **C4 amended.** An enqueue into a full bus evicts the oldest envelope
and inserts the new one, but leaves the `dropped_frames` counter
unchanged: the enqueue path never modifies the pipeline stats. -/
theorem evict_leaves_dropped_unchanged {α : Type} (cap : Nat) (q : List α)
    (d : Nat) (e : α) (hfull : q.length = cap) (_hcap : 0 < cap) :
    streamEnqueue cap (q, d) e = (q.tail ++ [e], d) := by
  unfold streamEnqueue tryEnqueue
  rw [hfull]
  simp

/-- Concrete run of amended C4: the eviction happens and the counter stays 7. -/
theorem evict_leaves_dropped_unchanged_witness :
    ([5] : List Nat).length = 1 ∧ 0 < 1 ∧
      streamEnqueue 1 (([5] : List Nat), 7) 6 = ([] ++ [6], 7) :=
  ⟨by decide, by decide, evict_leaves_dropped_unchanged 1 [5] 7 6 (by decide) (by decide)⟩

/-! ## Batcher: the single consumer loop

`StreamManager._processing_loop` (lines 224-251), with
`batch_size = config.BATCH_SIZE`.  Each iteration of the `while
self.running` loop attempts `frame_queue.get(timeout=0.1)`; on
`queue.Empty` it executes `continue` (lines 232-235); on success it
appends the frame to `batch_frames` and flushes via `_process_batch` as
soon as `len(batch_frames) >= batch_size` (lines 237-243).  When the loop
exits (`running` false) the remaining partial batch, and only it, is
flushed (lines 249-251). -/

/-- State of the consumer: the shared queue contents (head = oldest), the
`batch_frames` accumulator, and the sequence of batches handed to
`_process_batch` so far. -/
structure ConsumerState (α : Type) where
  queue : List α
  batch : List α
  flushes : List (List α)
deriving DecidableEq, Repr

/-- One iteration of the `while self.running` body of `_processing_loop`
(lines 229-243).  An empty queue is the `queue.Empty` timeout: the body
just `continue`s.  Otherwise the oldest frame is dequeued, appended to the
accumulator, and the accumulator is flushed exactly when it reaches
`batchSize`. -/
def consumerIter {α : Type} (batchSize : Nat) (st : ConsumerState α) :
    ConsumerState α :=
  match st.queue with
  | [] => st
  | f :: rest =>
    if batchSize ≤ (st.batch ++ [f]).length then
      ⟨rest, [], st.flushes ++ [st.batch ++ [f]]⟩
    else
      ⟨rest, st.batch ++ [f], st.flushes⟩

/-- `n` iterations of the consumer loop while `running` is true. -/
def consumerRun {α : Type} (batchSize : Nat) : Nat → ConsumerState α → ConsumerState α
  | 0, st => st
  | n + 1, st => consumerRun batchSize n (consumerIter batchSize st)

/-- Exit path of `_processing_loop` once `running` is false (lines
249-251): flush the remaining partial batch if non-empty; the shared queue
is not read again. -/
def consumerStop {α : Type} (st : ConsumerState α) : ConsumerState α :=
  if st.batch.isEmpty then st else ⟨st.queue, [], st.flushes ++ [st.batch]⟩

/-- A successful dequeue that fills the accumulator flushes it. -/
lemma consumerIter_cons_full {α : Type} (batchSize : Nat) (f : α)
    (rest acc : List α) (fls : List (List α))
    (h : batchSize ≤ acc.length + 1) :
    consumerIter batchSize ⟨f :: rest, acc, fls⟩ =
      ⟨rest, [], fls ++ [acc ++ [f]]⟩ := by
  unfold consumerIter
  simp [h]

/-- A successful dequeue that leaves the accumulator under-full only
appends. -/
lemma consumerIter_cons_notfull {α : Type} (batchSize : Nat) (f : α)
    (rest acc : List α) (fls : List (List α))
    (h : acc.length + 1 < batchSize) :
    consumerIter batchSize ⟨f :: rest, acc, fls⟩ =
      ⟨rest, acc ++ [f], fls⟩ := by
  have h' : ¬batchSize ≤ acc.length + 1 := by omega
  unfold consumerIter
  simp [h']

/-- Filling lemma: from an under-full accumulator, dequeuing exactly the
frames that complete one batch produces exactly one flush holding the
accumulator followed by those frames. -/
lemma consumerRun_fill {α : Type} (batchSize : Nat) :
    ∀ (frames acc : List α) (fls : List (List α)),
      frames ≠ [] → acc.length + frames.length = batchSize →
      consumerRun batchSize frames.length ⟨frames, acc, fls⟩ =
        ⟨[], [], fls ++ [acc ++ frames]⟩ := by
  intro frames
  induction frames with
  | nil => intro acc fls hne _; exact absurd rfl hne
  | cons f rest ih =>
    intro acc fls _ hlen
    rcases rest with _ | ⟨g, gs⟩
    · have hl : batchSize ≤ acc.length + 1 := by
        simp at hlen; omega
      show consumerRun batchSize 0 (consumerIter batchSize ⟨[f], acc, fls⟩) = _
      rw [consumerIter_cons_full batchSize f [] acc fls hl]
      rfl
    · have hl : acc.length + (g :: gs).length + 1 = batchSize := by
        simp at hlen ⊢; omega
      have hn : acc.length + 1 < batchSize := by
        simp at hl; omega
      have hlen' : (acc ++ [f]).length + (g :: gs).length = batchSize := by
        simp at hl ⊢; omega
      show consumerRun batchSize (g :: gs).length
          (consumerIter batchSize ⟨f :: g :: gs, acc, fls⟩) = _
      rw [consumerIter_cons_notfull batchSize f (g :: gs) acc fls hn,
        ih (acc ++ [f]) fls (by simp) hlen']
      simp

/-- **C6.** Feeding exactly `batchSize` frames to the consumer without
interruption triggers exactly one flush containing exactly those frames,
after which the accumulator is empty. -/
theorem batch_flush_by_size {α : Type} (batchSize : Nat) (frames : List α)
    (hlen : frames.length = batchSize) (hpos : 0 < batchSize) :
    consumerRun batchSize batchSize ⟨frames, [], []⟩ =
      ⟨[], [], [frames]⟩ := by
  have hne : frames ≠ [] := by
    intro h; rw [h] at hlen; simp at hlen; omega
  have h2 := consumerRun_fill batchSize frames [] [] hne (by simpa using hlen)
  rw [hlen] at h2
  simpa using h2

/-- Concrete run of C6: batch size 3, frames `[1, 2, 3]`, one flush. -/
theorem batch_flush_by_size_witness :
    ([1, 2, 3] : List Nat).length = 3 ∧ 0 < 3 ∧
      consumerRun 3 3 (⟨[1, 2, 3], [], []⟩ : ConsumerState Nat) =
        ⟨[], [], [[1, 2, 3]]⟩ :=
  ⟨by decide, by decide, batch_flush_by_size 3 [1, 2, 3] (by decide) (by decide)⟩

/-- **C5 (code bug).** With the default `BATCH_SIZE = 10` and a single
frame `7` in the accumulator, a dequeue timeout (`queue.Empty`) leaves the
state unchanged: no flush happens, contradicting both the claim and the
source comment "Process batch when full or timeout" (line 240). -/
theorem timeout_does_not_flush :
    consumerIter 10 (⟨[], [7], []⟩ : ConsumerState Nat) = ⟨[], [7], []⟩ := by
  rfl

/-! ## Shutdown behaviour of the consumer (C9)

`StreamManager.stop` (lines 207-222) clears `running` and joins the
processing thread.  The `while self.running` loop of `_processing_loop`
then exits without reading `frame_queue` again; only the local
`batch_frames` accumulator is flushed (lines 249-251). -/

/-- **C9 counterexample.** Pipeline stopped with one frame (`5`) still
buffered in the shared queue and an empty accumulator: the consumer exits
having flushed nothing, and the queue still holds the frame — it is not
drained. -/
theorem stop_does_not_drain_queue_cex :
    (consumerStop (⟨[5], [], []⟩ : ConsumerState Nat)).queue ≠ [] ∧
      (consumerStop (⟨[5], [], []⟩ : ConsumerState Nat)).flushes = [] := by
  decide

/-- Frame conservation through the loop body: no iteration loses or
duplicates a frame. -/
lemma consumerIter_conserves {α : Type} (batchSize : Nat)
    (st : ConsumerState α) :
    (consumerIter batchSize st).flushes.flatten ++
        (consumerIter batchSize st).batch ++ (consumerIter batchSize st).queue =
      st.flushes.flatten ++ st.batch ++ st.queue := by
  obtain ⟨q, acc, fls⟩ := st
  unfold consumerIter
  rcases q with _ | ⟨f, rest⟩
  · rfl
  · by_cases h : batchSize ≤ acc.length + 1 <;> simp [h, List.append_assoc]

/-- Frame conservation through any number of loop iterations. -/
lemma consumerRun_conserves {α : Type} (batchSize : Nat) :
    ∀ (n : Nat) (st : ConsumerState α),
      (consumerRun batchSize n st).flushes.flatten ++
          (consumerRun batchSize n st).batch ++ (consumerRun batchSize n st).queue =
        st.flushes.flatten ++ st.batch ++ st.queue := by
  intro n
  induction n with
  | zero => intro st; rfl
  | succ n ih =>
    intro st
    calc (consumerRun batchSize (n + 1) st).flushes.flatten ++
          (consumerRun batchSize (n + 1) st).batch ++
          (consumerRun batchSize (n + 1) st).queue
        = (consumerIter batchSize st).flushes.flatten ++
            (consumerIter batchSize st).batch ++
            (consumerIter batchSize st).queue := ih (consumerIter batchSize st)
      _ = st.flushes.flatten ++ st.batch ++ st.queue :=
          consumerIter_conserves batchSize st

/-- **C9 amended.** Stopping the pipeline makes the consumer flush only
the partial batch left in its accumulator; it performs no further
dequeues, so the frames it had dequeued before the stop are exactly the
flushed ones and whatever is still buffered in the shared queue stays
there unflushed: for a run of any length `n` from a fresh consumer on
queue contents `q`, after the stop the flushed batches concatenated with
the remaining queue give back `q`, the accumulator is empty, and the stop
step itself leaves the queue untouched. -/
theorem stop_flushes_only_partial_batch {α : Type} (batchSize n : Nat)
    (q : List α) :
    (consumerStop (consumerRun batchSize n ⟨q, [], []⟩)).flushes.flatten ++
        (consumerStop (consumerRun batchSize n ⟨q, [], []⟩)).queue = q ∧
      (consumerStop (consumerRun batchSize n ⟨q, [], []⟩)).batch = [] ∧
      (consumerStop (consumerRun batchSize n ⟨q, [], []⟩)).queue =
        (consumerRun batchSize n ⟨q, [], []⟩).queue := by
  have key : ∀ st : ConsumerState α,
      st.flushes.flatten ++ st.batch ++ st.queue = q →
      (consumerStop st).flushes.flatten ++ (consumerStop st).queue = q ∧
        (consumerStop st).batch = [] ∧ (consumerStop st).queue = st.queue := by
    rintro ⟨q', acc', fls'⟩ hst
    rcases acc' with _ | ⟨a, as⟩
    · refine ⟨?_, rfl, rfl⟩
      simpa using hst
    · refine ⟨?_, rfl, rfl⟩
      simp only [consumerStop] at *
      simpa [List.append_assoc] using hst
  have hrun := consumerRun_conserves batchSize n (⟨q, [], []⟩ : ConsumerState α)
  exact key _ (by simpa using hrun)

/-! ## SourceCapture: frame skipping and sequence numbers

`VideoStream.__init__` (line 41) fixes
`frame_skip = max(1, int(30 / config.max_fps))` — Python `int()` of the
positive float quotient truncates, which for integer `max_fps > 0` is
natural-number division by the hard-coded native rate 30.  The loop body
(lines 92-144) increments `frame_count` on *every* connected iteration
(line 102) and only then filters: the frame-skip test (line 103), the
frame-interval gate (lines 107-110) and a possible read failure (lines
112-116) each `continue` without enqueueing, but the counter value is
consumed; an accepted frame is enqueued carrying `frame_number =
frame_count` (lines 122-131). -/

/-- `frame_skip` of `VideoStream.__init__` (line 41): truncating division
of the constant 30 by the configured `max_fps`, clamped below at 1. -/
def frame_skip (max_fps : Nat) : Nat :=
  max 1 (30 / max_fps)

/-- The frame-skip filter of line 103: iteration `n` survives
(`frame_count % frame_skip == 0`) and its frame is a candidate. -/
def is_candidate (skip n : Nat) : Bool :=
  n % skip == 0

/-- The spec's formula for C7, for comparison with `frame_skip`:
`round(native_fps / target_fps)` with `native_fps = 30`, clamped below
at 1. -/
def spec_frame_skip (target_fps : Nat) : ℤ :=
  max 1 (round ((30 : ℚ) / (target_fps : ℚ)))

/-- **C7 counterexample.** At `max_fps = 4` the code computes
`max(1, int(30 / 4)) = 7` while the claimed `round(30 / 4) = 8`: the code
truncates where the claim rounds. -/
theorem frame_skip_is_not_rounded_cex :
    (frame_skip 4 : ℤ) = 7 ∧ spec_frame_skip 4 = 8 ∧
      ¬((frame_skip 4 : ℤ) = spec_frame_skip 4) := by
  refine ⟨by decide, ?_, ?_⟩ <;> norm_num [spec_frame_skip, frame_skip, round_eq]

/-- **C7 amended.** The `frame_skip` ratio is `max(1, ⌊30 / max_fps⌋)`:
the native rate is the constant 30 and the quotient is truncated (floor),
not rounded; and a captured frame with counter value `n` is a candidate
exactly when `frame_skip` divides `n`. -/
theorem frame_skip_floor_formula (max_fps : Nat) :
    (frame_skip max_fps : ℤ) = max 1 ⌊(30 : ℚ) / (max_fps : ℚ)⌋ ∧
      ∀ n : Nat, is_candidate (frame_skip max_fps) n = true ↔
        frame_skip max_fps ∣ n := by
  constructor
  · have h30 : ((30 : ℕ) : ℚ) = (30 : ℚ) := by norm_num
    rw [← h30, Rat.floor_natCast_div_natCast]
    unfold frame_skip
    push_cast [Nat.cast_max]
    norm_num
  · intro n
    unfold is_candidate
    simp [Nat.dvd_iff_mod_eq_zero]

/-- State of one capture loop: the frame counter and the `frame_number`
values already attached to enqueued envelopes (in enqueue order). -/
structure CaptureState where
  frameCount : Nat
  enqueued : List Nat
deriving DecidableEq, Repr

/-- One connected iteration of `VideoStream._stream_loop` (lines
102-140): the counter is incremented first (line 102); if the frame-skip
test fails the body `continue`s (lines 103-104); otherwise `gatePass`
says whether the frame survives both the frame-interval gate (lines
107-110) and the capture read (lines 112-116); a surviving frame is
enqueued carrying the current counter value (lines 122-131). -/
def streamIter (skip : Nat) (st : CaptureState) (gatePass : Bool) :
    CaptureState :=
  if (st.frameCount + 1) % skip ≠ 0 then
    ⟨st.frameCount + 1, st.enqueued⟩
  else if gatePass then
    ⟨st.frameCount + 1, st.enqueued ++ [st.frameCount + 1]⟩
  else
    ⟨st.frameCount + 1, st.enqueued⟩

/-- A run of the capture loop over a list of gate outcomes. -/
def streamRun (skip : Nat) (gates : List Bool) (st : CaptureState) :
    CaptureState :=
  gates.foldl (streamIter skip) st

/-- **C8 counterexample.** With `frame_skip = 2` and four iterations whose
gates all pass, the enqueued envelopes carry numbers `[2, 4]`: the two
consecutively enqueued envelopes from this source differ by 2, not 1,
although nothing was evicted from the bus — iterations discarded by the
frame-skip filter still consumed counter values 1 and 3. -/
theorem sequence_numbers_have_gaps_cex :
    (streamRun 2 [true, true, true, true] ⟨0, []⟩).enqueued = [2, 4] ∧
      ¬(2 + 1 = (4 : Nat)) := by
  decide

/-- Every iteration advances the counter by one and enqueues only numbers
at most the new counter value, keeping the enqueued list strictly
increasing. -/
lemma streamIter_inv (skip : Nat) (st : CaptureState) (g : Bool)
    (hsorted : st.enqueued.Sorted (· < ·))
    (hle : ∀ x ∈ st.enqueued, x ≤ st.frameCount) :
    (streamIter skip st g).frameCount = st.frameCount + 1 ∧
      (streamIter skip st g).enqueued.Sorted (· < ·) ∧
      ∀ x ∈ (streamIter skip st g).enqueued,
        x ≤ (streamIter skip st g).frameCount := by
  unfold streamIter
  split
  · exact ⟨rfl, hsorted, fun x hx => Nat.le_succ_of_le (hle x hx)⟩
  · split
    · refine ⟨rfl, ?_, ?_⟩
      · refine List.pairwise_append.mpr
          ⟨hsorted, List.pairwise_singleton _ _, ?_⟩
        intro x hx y hy
        have hxle := hle x hx
        have hy' : y = st.frameCount + 1 := List.mem_singleton.mp hy
        omega
      · intro x hx
        rcases List.mem_append.mp hx with h | h
        · exact Nat.le_succ_of_le (hle x h)
        · have hx' : x = st.frameCount + 1 := List.mem_singleton.mp h
          show x ≤ st.frameCount + 1
          omega
    · exact ⟨rfl, hsorted, fun x hx => Nat.le_succ_of_le (hle x hx)⟩

/-- The invariant of `streamIter_inv` carried through a whole run. -/
lemma streamRun_inv (skip : Nat) (gates : List Bool) :
    ∀ st : CaptureState, st.enqueued.Sorted (· < ·) →
      (∀ x ∈ st.enqueued, x ≤ st.frameCount) →
      (streamRun skip gates st).frameCount = st.frameCount + gates.length ∧
        (streamRun skip gates st).enqueued.Sorted (· < ·) ∧
        ∀ x ∈ (streamRun skip gates st).enqueued,
          x ≤ (streamRun skip gates st).frameCount := by
  induction gates with
  | nil => intro st h1 h2; exact ⟨rfl, h1, h2⟩
  | cons g gs ih =>
    intro st h1 h2
    obtain ⟨hc, hs, hl⟩ := streamIter_inv skip st g h1 h2
    obtain ⟨hc', hs', hl'⟩ := ih (streamIter skip st g) hs hl
    refine ⟨?_, hs', hl'⟩
    show (streamRun skip gs (streamIter skip st g)).frameCount = _
    rw [hc', hc]
    simp [Nat.add_assoc, Nat.add_comm 1 gs.length]

/-- **C8 amended.** For every source, the `frame_number` values attached
to enqueued envelopes are strictly increasing, and the counter advances on
every connected iteration — including those discarded by the frame-skip
filter or the frame-interval gate — so it ends at the number of
iterations, not at the number of enqueued envelopes: gaps between
consecutive enqueued numbers do not indicate bus-level drops. -/
theorem sequence_numbers_strictly_increasing (skip : Nat)
    (gates : List Bool) :
    (streamRun skip gates ⟨0, []⟩).enqueued.Sorted (· < ·) ∧
      (streamRun skip gates ⟨0, []⟩).frameCount = gates.length := by
  obtain ⟨hc, hs, _⟩ := streamRun_inv skip gates ⟨0, []⟩ (by simp) (by simp)
  exact ⟨hs, by simpa using hc⟩

/-! ## Alert gate (`src/workers/tasks.py`)

`config.py` defines `ALERT_COOLDOWN` (default 300) and
`MIN_VIOLATIONS_FOR_ALERT` (default 3).  `send_alert` (tasks.py lines
139-169) first calls `_should_send_alert` (lines 270-274) and returns
`{'status': 'skipped', 'reason': 'cooldown'}` when it is false; otherwise
the alert goes out.  The body of `_should_send_alert`, whose docstring is
"Check if alert should be sent based on cooldown and violation count", is
the stub `return True`. -/

/-- The fields of the detection-result dictionary that the alert path
reads (tasks.py lines 276-288): source stream, capture timestamp in
seconds, number of `no_mask` detections, and total faces. -/
structure DetectionData where
  stream_name : String
  timestamp : ℚ
  mask_violations : Nat
  total_faces : Nat
deriving DecidableEq, Repr

/-- `_should_send_alert` (tasks.py lines 270-274): the body is `return
True`, ignoring its argument and the cooldown configuration entirely. -/
def should_send_alert (_detection_data : DetectionData) : Bool :=
  true

/-- Outcome of `send_alert` visible to the caller. -/
inductive AlertOutcome where
  | sent
  | skipped
deriving DecidableEq, Repr

/-- The gating skeleton of `send_alert` (tasks.py lines 139-169): skip
exactly when `_should_send_alert` returns false, otherwise notify. -/
def send_alert (detection_data : DetectionData) : AlertOutcome :=
  if should_send_alert detection_data then AlertOutcome.sent
  else AlertOutcome.skipped

/-- The eligibility contract of the claim (spec §4.5), for comparison
with `should_send_alert`: at least `min_violations` violations and at
least `cooldown` seconds since the last alert for the source. -/
def spec_alert_eligible (min_violations cooldown : Nat)
    (last_alert_at : ℚ) (d : DetectionData) : Bool :=
  decide (min_violations ≤ d.mask_violations) &&
    decide ((cooldown : ℚ) ≤ d.timestamp - last_alert_at)

/-- **C1 (code bug).** `_should_send_alert` is a stub: it returns `true`
for every detection result, so `send_alert` never skips.  In the claim's
own scenario — `alert_cooldown = 300`, `min_violations_for_alert = 3`, an
eligible result alerted at t=0, then a result with 3 violations at
t=100 — the contract says the t=100 result is ineligible, yet the code
sends the alert. -/
theorem alert_gate_is_stub :
    (∀ d : DetectionData, should_send_alert d = true) ∧
      send_alert ⟨"camera_0", 100, 3, 4⟩ = AlertOutcome.sent ∧
      spec_alert_eligible 3 300 0 ⟨"camera_0", 100, 3, 4⟩ = false := by
  refine ⟨fun d => rfl, rfl, by norm_num [spec_alert_eligible]⟩

/-! ## Compliance rate (`src/workers/tasks.py` lines 329-336)

`_calculate_compliance_rate(stats)` reads `stats.total_faces` and
`stats.total_violations`, both SQL aggregates that may be `None`.  Python
`not stats.total_faces` is true exactly for `None` and `0`; `stats.
total_violations or 0` substitutes `0` for `None` (and maps `0` to
itself); `round(x, 2)` rounds to two decimal places, ties to even. -/

/-- Round to the nearest integer, ties to the even integer, as Python's
`round` does. -/
def round_half_even (q : ℚ) : ℤ :=
  if q - ⌊q⌋ < 1 / 2 then ⌊q⌋
  else if 1 / 2 < q - ⌊q⌋ then ⌊q⌋ + 1
  else if ⌊q⌋ % 2 = 0 then ⌊q⌋ else ⌊q⌋ + 1

/-- Python's `round(x, 2)`: round to two decimal places. -/
def round2 (q : ℚ) : ℚ :=
  (round_half_even (q * 100) : ℚ) / 100

/-- `_calculate_compliance_rate` (tasks.py lines 329-336).  `none` models
a SQL `NULL` aggregate. -/
def calculate_compliance_rate (total_faces total_violations : Option ℤ) : ℚ :=
  match total_faces with
  | none => 100
  | some tf =>
    if tf = 0 then 100
    else round2 ((((tf : ℚ) - ((total_violations.getD 0 : ℤ) : ℚ)) / (tf : ℚ)) * 100)

/-- **C10.** The compliance-rate computation is total and never divides
by zero: a missing or zero `total_faces` yields `100.0`; otherwise the
result is `((total_faces − violations) / total_faces) * 100` rounded to
two decimal places, with a missing `total_violations` treated as 0. -/
theorem compliance_rate_total :
    (∀ v, calculate_compliance_rate none v = 100) ∧
      (∀ v, calculate_compliance_rate (some 0) v = 100) ∧
      (∀ tf v : ℤ, tf ≠ 0 →
        calculate_compliance_rate (some tf) (some v) =
          round2 ((((tf : ℚ) - (v : ℚ)) / (tf : ℚ)) * 100)) ∧
      (∀ tf : ℤ, tf ≠ 0 →
        calculate_compliance_rate (some tf) none =
          round2 ((((tf : ℚ) - (0 : ℚ)) / (tf : ℚ)) * 100)) := by
  refine ⟨fun v => rfl, fun v => rfl, fun tf v htf => ?_, fun tf htf => ?_⟩
  · simp [calculate_compliance_rate, htf]
  · simp [calculate_compliance_rate, htf]

/-- Concrete run of C10: 3 faces, 1 violation gives `66.67`; a `NULL`
total gives `100`. -/
theorem compliance_rate_total_witness :
    calculate_compliance_rate (some 3) (some 1) = 6667 / 100 ∧
      calculate_compliance_rate none (some 5) = 100 :=
  ⟨(compliance_rate_total.2.2.1 3 1 (by decide)).trans
      (by norm_num [round2, round_half_even]),
    compliance_rate_total.1 (some 5)⟩

end StreamPipeline
